import Mathlib

/-!
Shallow embedding of the `quote` PDF page-count estimator.

Source files embedded:
* `src/get_sizes.py` — `PageSize`, `classify_page_size`, `calculate_a4_equivalent`
* `src/check_for_colored.py` — `check_for_colored`
* `src/calculate.py` — `Calculate.run`, `Calculate._get_pdf_info`, abort flag

Numeric conventions: Python floats on the values the program meets are
modelled by `ℚ` (the literal `0.352778` is exactly representable); uint8
channel samples are `ℕ` values in `0..255`; NumPy's `int16` arithmetic is
modelled by wrapping to the signed 16-bit range.
-/

set_option autoImplicit false

/-- `PageSize` from `src/get_sizes.py`: an `IntEnum` with A4 = 0, A3 = 1,
A2 = 2, A1 = 3. -/
inductive PageSize where
  | A4
  | A3
  | A2
  | A1
deriving DecidableEq, Repr

/-- The underlying `IntEnum` value of a `PageSize` (A4 = 0 … A1 = 3); the
enum order, smallest bucket first. -/
def PageSize.val : PageSize → ℕ
  | .A4 => 0
  | .A3 => 1
  | .A2 => 2
  | .A1 => 3

/-- `PageSizes = defaultdict[int, PageSize]`: a dict from 1-based page index
to `PageSize`.  Python dicts preserve insertion order, so the map is
modelled as the association list of its entries in insertion order. -/
abbrev PageSizes := List (ℕ × PageSize)

/-- A rendered pixel buffer, as returned by `page.get_pixmap()`:
`n` is the channel count (`pixmap.n`), and `pixels` lists the pixels of the
buffer in row-major order, each pixel being its `n` channel samples
(uint8 values, here `ℕ`).  The `(height, width, n)` reshape in
`check_for_colored` only groups the flat sample buffer into pixels, which
is what `pixels` holds directly. -/
structure Pixmap where
  n : ℕ
  pixels : List (List ℕ)
deriving DecidableEq, Repr

/-- A PDF page as the program consumes it: its media-box size
`(width, height)` in points (`page.mediabox_size`) and the pixel buffer
its rasterization yields (`page.get_pixmap()`). -/
structure Page where
  mediabox_size : ℚ × ℚ
  pixmap : Pixmap
deriving DecidableEq

/-- `classify_page_size` from `src/get_sizes.py` (lines 20–34):
`area = width * height * (0.352778 ** 2)` (points → millimeters), then
bucket by fixed area thresholds. -/
def classify_page_size (page : Page) : PageSize :=
  let width := page.mediabox_size.1
  let height := page.mediabox_size.2
  let area := width * height * (0.352778 : ℚ) ^ 2
  if area < 80000 then .A4
  else if area < 150000 then .A3
  else if area < 300000 then .A2
  else .A1

/-- The spec's description of the bucketing step, written from the spec's
words: given `area = width_mm * height_mm`, bucket by the fixed thresholds
80 000 / 150 000 / 300 000 mm². -/
def bucketOfArea (area : ℚ) : PageSize :=
  if area < 80000 then .A4
  else if area < 150000 then .A3
  else if area < 300000 then .A2
  else .A1

/-- `Counter(page_sizes.values())[ps]`: how many pages of the map are
classified as `ps`. -/
def countVal (page_sizes : PageSizes) (ps : PageSize) : ℕ :=
  (page_sizes.map Prod.snd).count ps

/-- `calculate_a4_equivalent` from `src/get_sizes.py` (lines 37–46):
weighted sum of the per-bucket counts with multipliers
A4 : 1, A3 : 2, A2 : 4, A1 : 8. -/
def calculate_a4_equivalent (page_sizes : PageSizes) : ℕ :=
  countVal page_sizes .A4 +
    countVal page_sizes .A3 * 2 +
    countVal page_sizes .A2 * 4 +
    countVal page_sizes .A1 * 8

/-- The spec's per-page multiplier: each page counts as this many A4
units. -/
def PageSize.weight : PageSize → ℕ
  | .A4 => 1
  | .A3 => 2
  | .A2 => 4
  | .A1 => 8

/-- Wrap an integer to the signed 16-bit range, the value an `np.int16`
cell holds. -/
def toInt16 (z : ℤ) : ℤ := (z + 32768) % 65536 - 32768

/-- `img.astype(np.int16)` followed by subtraction of two cells
(`img[:, :, i] - img[:, :, j]`): uint8 samples cast to int16, subtracted
in int16. -/
def int16Sub (a b : ℕ) : ℤ := toInt16 ((a : ℤ) - (b : ℤ))

/-- `np.abs` on an int16 value (wraps on `-32768`, like NumPy). -/
def int16Abs (z : ℤ) : ℤ := toInt16 |z|

/-- `tolerance = 10` in `src/check_for_colored.py` (line 48). -/
def tolerance : ℤ := 10

/-- The per-pixel test of `src/check_for_colored.py` (lines 51–55):
`diff_rg = np.abs(img[:,:,0] - img[:,:,1])`,
`diff_gb = np.abs(img[:,:,1] - img[:,:,2])`,
significant iff `diff_rg > tolerance or diff_gb > tolerance`. -/
def significantPixel (px : List ℕ) : Bool :=
  let diff_rg := int16Abs (int16Sub (px.getD 0 0) (px.getD 1 0))
  let diff_gb := int16Abs (int16Sub (px.getD 1 0) (px.getD 2 0))
  decide (tolerance < diff_rg) || decide (tolerance < diff_gb)

/-- `check_for_colored` from `src/check_for_colored.py` (lines 35–60):
return `false` for buffers of fewer than 3 channels; for 4-channel buffers
first flatten to RGB (`pymupdf.Pixmap(pymupdf.csRGB, pixmap)` drops the
alpha channel, keeping channels 0–2); then report whether any pixel's
channel differences exceed the tolerance
(`len(np.column_stack(np.where(significant_diff))) > 0`). -/
def check_for_colored (page : Page) : Bool :=
  let pixmap := page.pixmap
  if pixmap.n < 3 then false
  else
    let pixmap :=
      if pixmap.n == 4 then
        Pixmap.mk 3 (pixmap.pixels.map (fun px => px.take 3))
      else pixmap
    pixmap.pixels.any significantPixel

/-- The cooperative cancellation flag `self._aborted` of `Calculate`
(`src/calculate.py`).  The flag is read only at the page-check points of
`_get_pdf_info`, which happen one after another; `stop = some s` models a
`stop()` call that makes the flag read `true` from the `s`-th check
(0-based) onward, `stop = none` a run with no `stop()` call. -/
def aborted (stop : Option ℕ) (checkNum : ℕ) : Bool :=
  match stop with
  | none => false
  | some s => decide (s ≤ checkNum)

/-- The page loop of `Calculate._get_pdf_info` (`src/calculate.py`,
lines 83–101): for each page, first poll the abort flag (`raise
AbortionException`, modelled as `none`; the propagated exception aborts the
whole run, so the `self._aborted = False` reset only affects later runs);
otherwise classify the page, store it under its 1-based index in the
all-pages dict, and in the colored or monochrome dict according to
`check_for_colored`.  `checkNum` counts the flag polls across the run,
`pageNum` is the 0-based page index within the document, and `tot`, `col`,
`mono` accumulate the three dicts in insertion order. -/
def getPdfInfoGo (stop : Option ℕ) :
    ℕ → ℕ → PageSizes → PageSizes → PageSizes → List Page →
    Option (PageSizes × PageSizes × PageSizes × ℕ)
  | checkNum, _, tot, col, mono, [] => some (tot, col, mono, checkNum)
  | checkNum, pageNum, tot, col, mono, page :: rest =>
    if aborted stop checkNum then none
    else
      let page_size := classify_page_size page
      let human_readable_page_num := pageNum + 1
      if check_for_colored page then
        getPdfInfoGo stop (checkNum + 1) (pageNum + 1)
          (tot ++ [(human_readable_page_num, page_size)])
          (col ++ [(human_readable_page_num, page_size)]) mono rest
      else
        getPdfInfoGo stop (checkNum + 1) (pageNum + 1)
          (tot ++ [(human_readable_page_num, page_size)])
          col (mono ++ [(human_readable_page_num, page_size)]) rest

/-- `Calculate._get_pdf_info` on a document whose pages are `pages`,
starting from empty dicts.  Returns `none` when `AbortionException` is
raised, otherwise the three dicts and the check counter after the
document. -/
def _get_pdf_info (stop : Option ℕ) (checkNum : ℕ) (pages : List Page) :
    Option (PageSizes × PageSizes × PageSizes × ℕ) :=
  getPdfInfoGo stop checkNum 0 [] [] [] pages

/-- One row of the result table (`data.append({...})` in `Calculate.run`,
`src/calculate.py` lines 48–59).  Field names transliterate the column
names: `printedPages` = 인쇄 페이지수, `monochromePages` = 흑백 페이지수,
`coloredPagesCount` = 컬러 페이지수, `coloredPages` = 컬러 페이지. -/
structure Row where
  fileName : String
  pdf : ℕ
  a4 : ℕ
  a3 : ℕ
  a2 : ℕ
  a1 : ℕ
  printedPages : ℕ
  monochromePages : ℕ
  coloredPagesCount : ℕ
  coloredPages : String
deriving DecidableEq, Repr

/-- The dict literal appended to `data` for one document
(`src/calculate.py` lines 48–59).  `'PDF': sum(page_counts.values())` is
the total multiplicity of `Counter(total_page_sizes.values())`, i.e. the
number of classified pages; `'컬러 페이지'` joins the keys of the colored
dict, in insertion order, with commas. -/
def mkRow (filename : String) (tot col mono : PageSizes) : Row where
  fileName := filename
  pdf := (tot.map Prod.snd).length
  a4 := countVal tot .A4
  a3 := countVal tot .A3
  a2 := countVal tot .A2
  a1 := countVal tot .A1
  printedPages := calculate_a4_equivalent tot
  monochromePages := calculate_a4_equivalent mono
  coloredPagesCount := calculate_a4_equivalent col
  coloredPages := String.intercalate "," (col.map (fun kv => toString kv.1))

/-- The filename filter of `Calculate.run` (`src/calculate.py` lines
37–38): `filename.lower().endswith('.pdf')`, modelled on the name's
character sequence — lowercase every character, then test for the suffix
`".pdf"` (`str.lower` lowercases characterwise on the names this program
meets, and `str.endswith` is the suffix test). -/
def pdfPred (filename : String) : Bool :=
  List.isSuffixOf ".pdf".data (filename.data.map Char.toLower)

/-- `filenames = [filename for filename in os.listdir(...) if
filename.lower().endswith('.pdf')]`. -/
def pdfFiles (listing : List String) : List String :=
  listing.filter pdfPred

/-- The per-file progress string yielded by `Calculate.run`
(`src/calculate.py` line 41). -/
def progressMessage (i total : ℕ) (filename : String) : String :=
  toString i ++ "/" ++ toString total ++ "개 파일 처리 중... (" ++ filename ++ ")"

/-- The file loop of `Calculate.run` (`src/calculate.py` lines 40–59):
for each remaining filename, yield its progress message, process the
document (`_get_pdf_info`; opening the file is the external collaborator
`docPages`, mapping a filename to its pages), and append its row to
`data`.  An `AbortionException` from `_get_pdf_info` propagates: the run
ends with the messages yielded so far, the rows of the documents completed
so far, and `false` for "completed". -/
def runGo (docPages : String → List Page) (stop : Option ℕ) (total : ℕ) :
    ℕ → ℕ → List String → List Row → List String →
    List String × List Row × Bool
  | _, _, msgs, data, [] => (msgs, data, true)
  | i, checkNum, msgs, data, filename :: rest =>
    let msg := progressMessage i total filename
    match _get_pdf_info stop checkNum (docPages filename) with
    | none => (msgs ++ [msg], data, false)
    | some (tot, col, mono, checkNum2) =>
        runGo docPages stop total (i + 1) checkNum2 (msgs ++ [msg])
          (data ++ [mkRow filename tot col mono]) rest

/-- `Calculate.run` (`src/calculate.py` lines 31–71): filter the folder
listing to PDF names, process them in order, and on completion yield the
final save message.  `listing` is `os.listdir(folder_path)`, `docPages`
the document-opening collaborator (`pymupdf.open` composed with the folder
path join), `outputFile` the timestamped output path.  Result: the yielded
progress strings, the result table, and whether the run completed. -/
def Calculate_run (listing : List String) (docPages : String → List Page)
    (stop : Option ℕ) (outputFile : String) :
    List String × List Row × Bool :=
  let filenames := pdfFiles listing
  match runGo docPages stop filenames.length 1 0 [] [] filenames with
  | (msgs, data, true) =>
      (msgs ++ ["PDF 정보가 " ++ outputFile ++ "에 저장되었습니다."], data, true)
  | (msgs, data, false) => (msgs, data, false)

/-! ### Spec-side companions used to state the claims -/

/-- The all-pages dict a completed document yields, described directly:
page `pageNum + 1` (1-based) maps to its classification, in page order. -/
def totOf : ℕ → List Page → PageSizes
  | _, [] => []
  | pageNum, page :: rest =>
    (pageNum + 1, classify_page_size page) :: totOf (pageNum + 1) rest

/-- The colored-pages dict a completed document yields: the sub-dict of
`totOf` on the pages the color detector accepts. -/
def colOf : ℕ → List Page → PageSizes
  | _, [] => []
  | pageNum, page :: rest =>
    if check_for_colored page then
      (pageNum + 1, classify_page_size page) :: colOf (pageNum + 1) rest
    else colOf (pageNum + 1) rest

/-- The monochrome-pages dict a completed document yields: the sub-dict of
`totOf` on the pages the color detector rejects. -/
def monoOf : ℕ → List Page → PageSizes
  | _, [] => []
  | pageNum, page :: rest =>
    if check_for_colored page then monoOf (pageNum + 1) rest
    else (pageNum + 1, classify_page_size page) :: monoOf (pageNum + 1) rest

/-- The 1-based indices of the pages the color detector accepts, in page
order (`coloredIndices 0 pages` for a whole document). -/
def coloredIndices : ℕ → List Page → List ℕ
  | _, [] => []
  | pageNum, page :: rest =>
    if check_for_colored page then
      (pageNum + 1) :: coloredIndices (pageNum + 1) rest
    else coloredIndices (pageNum + 1) rest

/-- The per-file progress messages for a list of filenames, enumerated
from `i`. -/
def progressMsgs (total : ℕ) : ℕ → List String → List String
  | _, [] => []
  | i, filename :: rest =>
    progressMessage i total filename :: progressMsgs total (i + 1) rest

/-- How many abort-flag polls happen before document `j` of `files` starts:
one poll per page of each earlier document. -/
def checksUpTo (docPages : String → List Page) (files : List String)
    (j : ℕ) : ℕ :=
  ((files.take j).map (fun f => (docPages f).length)).sum

/-- The summary row a document contributes once processed to completion:
`mkRow` applied to the three dicts the page loop builds. -/
def rowOf (docPages : String → List Page) (filename : String) : Row :=
  mkRow filename (totOf 0 (docPages filename)) (colOf 0 (docPages filename))
    (monoOf 0 (docPages filename))

/-- Default page used only to state lookups by index. -/
def dummyPage : Page := ⟨(0, 0), ⟨0, []⟩⟩

/-! ### Closed forms of the page loop -/

lemma getPdfInfoGo_complete (stop : Option ℕ) (pages : List Page) :
    ∀ (checkNum pageNum : ℕ) (tot col mono : PageSizes),
      (∀ k, k < pages.length → aborted stop (checkNum + k) = false) →
      getPdfInfoGo stop checkNum pageNum tot col mono pages =
        some (tot ++ totOf pageNum pages, col ++ colOf pageNum pages,
          mono ++ monoOf pageNum pages, checkNum + pages.length) := by
  induction pages with
  | nil =>
    intro c n tot col mono _
    simp [getPdfInfoGo, totOf, colOf, monoOf]
  | cons p rest ih =>
    intro c n tot col mono h
    have h0 : aborted stop c = false := by
      have h1 := h 0 (by simp)
      simpa using h1
    have h2 : ∀ k, k < rest.length → aborted stop (c + 1 + k) = false := by
      intro k hk
      have h3 := h (k + 1) (by simp only [List.length_cons]; omega)
      rwa [show c + (k + 1) = c + 1 + k by omega] at h3
    by_cases hc : check_for_colored p = true
    · simp only [getPdfInfoGo, h0, Bool.false_eq_true, if_false, hc, if_true]
      rw [ih (c + 1) (n + 1) _ _ _ h2]
      simp [totOf, colOf, monoOf, hc, List.append_assoc]
      omega
    · simp only [getPdfInfoGo, h0, Bool.false_eq_true, if_false, hc]
      rw [ih (c + 1) (n + 1) _ _ _ h2]
      simp [totOf, colOf, monoOf, hc, List.append_assoc]
      omega

lemma get_pdf_info_complete (stop : Option ℕ) (checkNum : ℕ)
    (pages : List Page)
    (h : ∀ k, k < pages.length → aborted stop (checkNum + k) = false) :
    _get_pdf_info stop checkNum pages =
      some (totOf 0 pages, colOf 0 pages, monoOf 0 pages,
        checkNum + pages.length) := by
  unfold _get_pdf_info
  simpa using getPdfInfoGo_complete stop pages checkNum 0 [] [] [] h

lemma get_pdf_info_none (checkNum : ℕ) (pages : List Page) :
    _get_pdf_info none checkNum pages =
      some (totOf 0 pages, colOf 0 pages, monoOf 0 pages,
        checkNum + pages.length) :=
  get_pdf_info_complete none checkNum pages (fun _ _ => rfl)

lemma getPdfInfoGo_abort (s : ℕ) (pages : List Page) :
    ∀ (checkNum pageNum : ℕ) (tot col mono : PageSizes),
      checkNum ≤ s → s < checkNum + pages.length →
      getPdfInfoGo (some s) checkNum pageNum tot col mono pages = none := by
  induction pages with
  | nil =>
    intro c n tot col mono h1 h2
    simp only [List.length_nil] at h2
    omega
  | cons p rest ih =>
    intro c n tot col mono h1 h2
    by_cases hcs : s ≤ c
    · have h0 : aborted (some s) c = true := by
        simp [aborted]
        omega
      simp [getPdfInfoGo, h0]
    · have h0 : aborted (some s) c = false := by
        simp [aborted]
        omega
      have h3 : c + 1 ≤ s := by omega
      have h4 : s < c + 1 + rest.length := by
        simp only [List.length_cons] at h2
        omega
      by_cases hc : check_for_colored p = true
      · simp only [getPdfInfoGo, h0, Bool.false_eq_true, if_false, hc,
          if_true]
        exact ih (c + 1) (n + 1) _ _ _ h3 h4
      · simp only [getPdfInfoGo, h0, Bool.false_eq_true, if_false, hc]
        exact ih (c + 1) (n + 1) _ _ _ h3 h4

lemma get_pdf_info_abort (s checkNum : ℕ) (pages : List Page)
    (h1 : checkNum ≤ s) (h2 : s < checkNum + pages.length) :
    _get_pdf_info (some s) checkNum pages = none :=
  getPdfInfoGo_abort s pages checkNum 0 [] [] [] h1 h2

/-! ### Arithmetic of the A4-equivalent -/

lemma count_weight_sum (l : List PageSize) :
    l.count .A4 + l.count .A3 * 2 + l.count .A2 * 4 + l.count .A1 * 8 =
      (l.map PageSize.weight).sum := by
  induction l with
  | nil => simp
  | cons p t ih =>
    cases p <;> simp [List.count_cons, PageSize.weight] <;> omega

lemma a4_equivalent_eq_weight_sum (m : PageSizes) :
    calculate_a4_equivalent m = ((m.map Prod.snd).map PageSize.weight).sum := by
  unfold calculate_a4_equivalent countVal
  exact count_weight_sum (m.map Prod.snd)

lemma count_sizes_eq_length (l : List PageSize) :
    l.count .A4 + l.count .A3 + l.count .A2 + l.count .A1 = l.length := by
  induction l with
  | nil => simp
  | cons p t ih =>
    cases p <;> simp [List.count_cons] <;> omega

/-! ### int16 arithmetic of the color detector -/

lemma toInt16_eq_self (z : ℤ) (h1 : -32768 ≤ z) (h2 : z < 32768) :
    toInt16 z = z := by
  unfold toInt16
  omega

lemma int16Sub_exact (a b : ℕ) (ha : a ≤ 255) (hb : b ≤ 255) :
    int16Sub a b = (a : ℤ) - (b : ℤ) := by
  unfold int16Sub
  apply toInt16_eq_self <;> omega

lemma int16_abs_sub_exact (a b : ℕ) (ha : a ≤ 255) (hb : b ≤ 255) :
    int16Abs (int16Sub a b) = |(a : ℤ) - (b : ℤ)| := by
  rw [int16Sub_exact a b ha hb]
  unfold int16Abs
  have h1 : (0 : ℤ) ≤ |(a : ℤ) - (b : ℤ)| := abs_nonneg _
  have h2 : |(a : ℤ) - (b : ℤ)| ≤ 255 := by
    rw [abs_le]
    omega
  apply toInt16_eq_self <;> omega

/-! ### The three dicts of a completed document -/

lemma keys_colOf_gt (pages : List Page) :
    ∀ n k, k ∈ (colOf n pages).map Prod.fst → n < k := by
  induction pages with
  | nil =>
    intro n k h
    simp [colOf] at h
  | cons p rest ih =>
    intro n k h
    by_cases hc : check_for_colored p = true
    · simp only [colOf, hc, if_true, List.map_cons, List.mem_cons] at h
      rcases h with rfl | h
      · omega
      · have := ih (n + 1) k h
        omega
    · simp only [colOf, hc, Bool.false_eq_true, if_false] at h
      have := ih (n + 1) k h
      omega

lemma keys_monoOf_gt (pages : List Page) :
    ∀ n k, k ∈ (monoOf n pages).map Prod.fst → n < k := by
  induction pages with
  | nil =>
    intro n k h
    simp [monoOf] at h
  | cons p rest ih =>
    intro n k h
    by_cases hc : check_for_colored p = true
    · simp only [monoOf, hc, if_true] at h
      have := ih (n + 1) k h
      omega
    · simp only [monoOf, hc, Bool.false_eq_true, if_false, List.map_cons,
        List.mem_cons] at h
      rcases h with rfl | h
      · omega
      · have := ih (n + 1) k h
        omega

lemma keys_partition (pages : List Page) :
    ∀ n k,
      (k ∈ (totOf n pages).map Prod.fst ↔
        k ∈ (colOf n pages).map Prod.fst ∨ k ∈ (monoOf n pages).map Prod.fst)
      ∧ ¬(k ∈ (colOf n pages).map Prod.fst
          ∧ k ∈ (monoOf n pages).map Prod.fst) := by
  induction pages with
  | nil =>
    intro n k
    simp [totOf, colOf, monoOf]
  | cons p rest ih =>
    intro n k
    obtain ⟨ihIff, ihDisj⟩ := ih (n + 1) k
    by_cases hc : check_for_colored p = true
    · simp only [totOf, colOf, monoOf, hc, if_true, List.map_cons,
        List.mem_cons]
      constructor
      · constructor
        · rintro (h | hk)
          · exact Or.inl (Or.inl h)
          · rcases ihIff.1 hk with h | h
            · exact Or.inl (Or.inr h)
            · exact Or.inr h
        · rintro ((h | hk) | hk)
          · exact Or.inl h
          · exact Or.inr (ihIff.2 (Or.inl hk))
          · exact Or.inr (ihIff.2 (Or.inr hk))
      · rintro ⟨h | hcol, hmono⟩
        · have := keys_monoOf_gt rest (n + 1) k hmono
          omega
        · exact ihDisj ⟨hcol, hmono⟩
    · simp only [totOf, colOf, monoOf, hc, Bool.false_eq_true, if_false,
        List.map_cons, List.mem_cons]
      constructor
      · constructor
        · rintro (h | hk)
          · exact Or.inr (Or.inl h)
          · rcases ihIff.1 hk with h | h
            · exact Or.inl h
            · exact Or.inr (Or.inr h)
        · rintro (hcol | (h | hmono))
          · exact Or.inr (ihIff.2 (Or.inl hcol))
          · exact Or.inl h
          · exact Or.inr (ihIff.2 (Or.inr hmono))
      · rintro ⟨hcol, h | hmono⟩
        · have := keys_colOf_gt rest (n + 1) k hcol
          omega
        · exact ihDisj ⟨hcol, hmono⟩

lemma vals_perm (pages : List Page) :
    ∀ n, ((totOf n pages).map Prod.snd).Perm
      ((colOf n pages).map Prod.snd ++ (monoOf n pages).map Prod.snd) := by
  induction pages with
  | nil =>
    intro n
    simp [totOf, colOf, monoOf]
  | cons p rest ih =>
    intro n
    by_cases hc : check_for_colored p = true
    · simp only [totOf, colOf, monoOf, hc, if_true, List.map_cons,
        List.cons_append]
      exact (ih (n + 1)).cons _
    · simp only [totOf, colOf, monoOf, hc, Bool.false_eq_true, if_false,
        List.map_cons]
      exact ((ih (n + 1)).cons _).trans List.perm_middle.symm

lemma totOf_length (pages : List Page) :
    ∀ n, (totOf n pages).length = pages.length := by
  induction pages with
  | nil =>
    intro n
    simp [totOf]
  | cons p rest ih =>
    intro n
    simp [totOf, ih (n + 1)]

lemma keys_colOf_eq_coloredIndices (pages : List Page) :
    ∀ n, (colOf n pages).map Prod.fst = coloredIndices n pages := by
  induction pages with
  | nil =>
    intro n
    simp [colOf, coloredIndices]
  | cons p rest ih =>
    intro n
    by_cases hc : check_for_colored p = true <;>
      simp [colOf, coloredIndices, hc, ih (n + 1)]

lemma coloredIndices_pairwise (pages : List Page) :
    ∀ n, List.Pairwise (fun a b => a < b) (coloredIndices n pages) := by
  induction pages with
  | nil =>
    intro n
    simp [coloredIndices]
  | cons p rest ih =>
    intro n
    by_cases hc : check_for_colored p = true
    · simp only [coloredIndices, hc, if_true]
      refine List.Pairwise.cons ?_ (ih (n + 1))
      intro b hb
      have h2 := keys_colOf_gt rest (n + 1) b
        (by rw [keys_colOf_eq_coloredIndices]; exact hb)
      omega
    · simp only [coloredIndices, hc, Bool.false_eq_true, if_false]
      exact ih (n + 1)

lemma coloredIndices_mem (pages : List Page) :
    ∀ n k, k ∈ coloredIndices n pages ↔
      ∃ i, i < pages.length ∧ k = n + i + 1
        ∧ check_for_colored (pages.getD i dummyPage) = true := by
  induction pages with
  | nil =>
    intro n k
    simp [coloredIndices]
  | cons p rest ih =>
    intro n k
    by_cases hc : check_for_colored p = true
    · simp only [coloredIndices, hc, if_true, List.mem_cons]
      constructor
      · rintro (rfl | hk)
        · exact ⟨0, by simp, by omega, by simpa using hc⟩
        · obtain ⟨i, hi, hki, hci⟩ := (ih (n + 1) k).1 hk
          refine ⟨i + 1, by simp only [List.length_cons]; omega, by omega, ?_⟩
          simpa using hci
      · rintro ⟨i, hi, hki, hci⟩
        cases i with
        | zero => left; omega
        | succ j =>
          right
          refine (ih (n + 1) k).2 ⟨j, ?_, by omega, ?_⟩
          · simp only [List.length_cons] at hi
            omega
          · rwa [List.getD_cons_succ] at hci
    · simp only [coloredIndices, hc, Bool.false_eq_true, if_false]
      rw [ih (n + 1) k]
      constructor
      · rintro ⟨i, hi, hki, hci⟩
        refine ⟨i + 1, by simp only [List.length_cons]; omega, by omega, ?_⟩
        simpa using hci
      · rintro ⟨i, hi, hki, hci⟩
        cases i with
        | zero =>
          rw [List.getD_cons_zero] at hci
          exact absurd hci hc
        | succ j =>
          refine ⟨j, ?_, by omega, ?_⟩
          · simp only [List.length_cons] at hi
            omega
          · rwa [List.getD_cons_succ] at hci

/-! ### Bucketing lemmas -/

lemma classify_eq_bucket (w h : ℚ) (pm : Pixmap) :
    classify_page_size ⟨(w, h), pm⟩ =
      bucketOfArea (w * 0.352778 * (h * 0.352778)) := by
  have harea : w * h * (0.352778 : ℚ) ^ 2 = w * 0.352778 * (h * 0.352778) := by
    ring
  unfold classify_page_size bucketOfArea
  simp only [harea]

lemma bucketOfArea_mono (a₁ a₂ : ℚ) (h : a₁ ≤ a₂) :
    (bucketOfArea a₁).val ≤ (bucketOfArea a₂).val := by
  unfold bucketOfArea
  split_ifs <;> simp [PageSize.val] <;> linarith

lemma bucketOfArea_boundaries (a : ℚ) :
    (bucketOfArea a = .A4 ↔ a < 80000)
    ∧ (bucketOfArea a = .A3 ↔ 80000 ≤ a ∧ a < 150000)
    ∧ (bucketOfArea a = .A2 ↔ 150000 ≤ a ∧ a < 300000)
    ∧ (bucketOfArea a = .A1 ↔ 300000 ≤ a) := by
  unfold bucketOfArea
  split_ifs with h1 h2 h3 <;>
    refine ⟨?_, ?_, ?_, ?_⟩ <;> simp <;>
    first
    | linarith
    | (refine ⟨?_, ?_⟩ <;> linarith)
    | (intro hx; linarith)

/-! ### Claim theorems: page-size classification -/

/-- C1: `classify_page_size` converts each dimension to millimeters with
the factor 0.352778, forms the area `width_mm * height_mm`, and buckets it
with exact boundaries (area < 80000 → A4, 80000 ≤ area < 150000 → A3,
150000 ≤ area < 300000 → A2, 300000 ≤ area → A1, each lower boundary in
the larger bucket), the bucket being monotonically non-decreasing in the
area. -/
theorem classify_page_size_spec :
    (∀ (w h : ℚ) (pm : Pixmap),
        classify_page_size ⟨(w, h), pm⟩ =
          bucketOfArea (w * 0.352778 * (h * 0.352778)))
    ∧ (∀ a₁ a₂ : ℚ, a₁ ≤ a₂ → (bucketOfArea a₁).val ≤ (bucketOfArea a₂).val)
    ∧ (∀ a : ℚ,
        (bucketOfArea a = .A4 ↔ a < 80000)
        ∧ (bucketOfArea a = .A3 ↔ 80000 ≤ a ∧ a < 150000)
        ∧ (bucketOfArea a = .A2 ↔ 150000 ≤ a ∧ a < 300000)
        ∧ (bucketOfArea a = .A1 ↔ 300000 ≤ a)) :=
  ⟨classify_eq_bucket, bucketOfArea_mono, bucketOfArea_boundaries⟩

/-- Witness for C1 at concrete inputs: a 595 × 842 pt page, the monotone
step across the 80000 boundary, and the 80000 boundary itself. -/
theorem classify_page_size_spec_witness :
    classify_page_size ⟨((595 : ℚ), 842), ⟨0, []⟩⟩ =
      bucketOfArea (595 * 0.352778 * (842 * 0.352778))
    ∧ (bucketOfArea (79999.9 : ℚ)).val ≤ (bucketOfArea (80000 : ℚ)).val
    ∧ (bucketOfArea (80000 : ℚ) = .A3 ↔
        (80000 : ℚ) ≤ 80000 ∧ (80000 : ℚ) < 150000) :=
  ⟨classify_page_size_spec.1 595 842 ⟨0, []⟩,
   classify_page_size_spec.2.1 79999.9 80000 (by norm_num),
   (classify_page_size_spec.2.2 80000).2.1⟩

/-- C6 fails as stated: with both dimensions negative the area is positive
and can land in any bucket; at width = height = −3000 pt the code returns
A1, not A4, though a dimension is negative. -/
theorem classify_negative_counterexample :
    ((-3000 : ℚ) ≤ 0 ∧ (-3000 : ℚ) ≤ 0)
    ∧ classify_page_size ⟨((-3000 : ℚ), -3000), ⟨0, []⟩⟩ ≠ PageSize.A4 := by
  refine ⟨⟨by norm_num, by norm_num⟩, ?_⟩
  have hval : classify_page_size ⟨((-3000 : ℚ), -3000), ⟨0, []⟩⟩ =
      PageSize.A1 := by
    unfold classify_page_size
    norm_num
  rw [hval]
  decide

/-- C6 amended: for every degenerate input where the width or the height
is zero or negative — except when both are strictly negative — the area is
non-positive, so `classify_page_size` returns A4 by the same comparison,
with no error or special case. -/
theorem classify_nonpositive_dimension (w h : ℚ) (pm : Pixmap)
    (hdeg : w ≤ 0 ∨ h ≤ 0) (hnotboth : ¬(w < 0 ∧ h < 0)) :
    classify_page_size ⟨(w, h), pm⟩ = PageSize.A4 := by
  have hwh : w * h ≤ 0 := by
    rcases hdeg with hw | hh
    · rcases le_or_lt 0 h with h0 | h0
      · exact mul_nonpos_of_nonpos_of_nonneg hw h0
      · have hw0 : w = 0 := by
          rcases lt_or_eq_of_le hw with hw' | hw'
          · exact absurd ⟨hw', h0⟩ hnotboth
          · exact hw'
        simp [hw0]
    · rcases le_or_lt 0 w with h0 | h0
      · exact mul_nonpos_of_nonneg_of_nonpos h0 hh
      · have hh0 : h = 0 := by
          rcases lt_or_eq_of_le hh with hh' | hh'
          · exact absurd ⟨h0, hh'⟩ hnotboth
          · exact hh'
        simp [hh0]
  have harea : w * h * (0.352778 : ℚ) ^ 2 < 80000 := by
    have hc : (0 : ℚ) ≤ (0.352778 : ℚ) ^ 2 := by positivity
    nlinarith
  unfold classify_page_size
  simp [harea]

/-- Witness for the amended C6 at width 0, height 500. -/
theorem classify_nonpositive_dimension_witness :
    classify_page_size ⟨((0 : ℚ), 500), ⟨0, []⟩⟩ = PageSize.A4 :=
  classify_nonpositive_dimension 0 500 ⟨0, []⟩ (Or.inl (by norm_num))
    (by norm_num)

/-! ### Claim theorems: A4 equivalent -/

/-- C4: `calculate_a4_equivalent` is the weighted sum of the per-bucket
page counts with multipliers A4 : 1, A3 : 2, A2 : 4, A1 : 8 (equivalently,
the sum of the per-page weights); it is total, the empty map yields 0, and
the map 1 ↦ A4, 2 ↦ A3, 3 ↦ A2, 4 ↦ A1 yields 15. -/
theorem calculate_a4_equivalent_spec :
    (∀ m : PageSizes,
        calculate_a4_equivalent m = ((m.map Prod.snd).map PageSize.weight).sum)
    ∧ calculate_a4_equivalent [] = 0
    ∧ calculate_a4_equivalent
        [(1, .A4), (2, .A3), (3, .A2), (4, .A1)] = 15 :=
  ⟨a4_equivalent_eq_weight_sum, by decide, by decide⟩

/-! ### Claim theorems: color detector arithmetic -/

/-- C9: on uint8 channel values (0–255), the int16 subtraction and
absolute value the detector computes suffer no wraparound: the computed
difference is the exact integer difference, and its absolute value the
exact |R−G| (resp. |G−B|). -/
theorem int16_channel_diff_exact (a b : ℕ) (ha : a ≤ 255) (hb : b ≤ 255) :
    int16Sub a b = (a : ℤ) - (b : ℤ)
    ∧ int16Abs (int16Sub a b) = |(a : ℤ) - (b : ℤ)| :=
  ⟨int16Sub_exact a b ha hb, int16_abs_sub_exact a b ha hb⟩

/-- Witness for C9 at the extreme pair (255, 0). -/
theorem int16_channel_diff_exact_witness :
    int16Sub 255 0 = (255 : ℤ) - (0 : ℤ)
    ∧ int16Abs (int16Sub 255 0) = |(255 : ℤ) - (0 : ℤ)| :=
  int16_channel_diff_exact 255 0 (by decide) (by decide)

/-- C7: a pixel buffer with fewer than 3 channels makes the detector
return `false` whatever the sample data holds. -/
theorem check_for_colored_few_channels (page : Page)
    (h : page.pixmap.n < 3) : check_for_colored page = false := by
  unfold check_for_colored
  simp [h]

/-- Witness for C7: a single-channel buffer with wildly varying samples. -/
theorem check_for_colored_few_channels_witness :
    check_for_colored ⟨((595 : ℚ), 842), ⟨1, [[255], [0], [255]]⟩⟩ = false :=
  check_for_colored_few_channels ⟨((595 : ℚ), 842), ⟨1, [[255], [0], [255]]⟩⟩
    (by decide)

/-! ### The color detector on 3-or-more-channel buffers -/

lemma getD_le_of_all_le (px : List ℕ) (i : ℕ)
    (h : ∀ c ∈ px, c ≤ 255) : px.getD i 0 ≤ 255 := by
  rw [List.getD_eq_getElem?_getD]
  cases hx : px[i]? with
  | none => simp
  | some c =>
    simpa using h c (List.getElem?_mem hx)

lemma getD_take_three (l : List ℕ) (i : ℕ) (h : i < 3) :
    (l.take 3).getD i 0 = l.getD i 0 := by
  rw [List.getD_eq_getElem?_getD, List.getD_eq_getElem?_getD,
    List.getElem?_take_of_lt h]

lemma significantPixel_take (px : List ℕ) :
    significantPixel (px.take 3) = significantPixel px := by
  unfold significantPixel
  rw [getD_take_three px 0 (by omega), getD_take_three px 1 (by omega),
    getD_take_three px 2 (by omega)]

lemma significantPixel_iff (px : List ℕ) (h : ∀ c ∈ px, c ≤ 255) :
    significantPixel px = true ↔
      10 < |(px.getD 0 0 : ℤ) - (px.getD 1 0 : ℤ)|
      ∨ 10 < |(px.getD 1 0 : ℤ) - (px.getD 2 0 : ℤ)| := by
  have h0 := getD_le_of_all_le px 0 h
  have h1 := getD_le_of_all_le px 1 h
  have h2 := getD_le_of_all_le px 2 h
  unfold significantPixel tolerance
  rw [int16_abs_sub_exact _ _ h0 h1, int16_abs_sub_exact _ _ h1 h2]
  simp

lemma check_for_colored_eq_any (page : Page) (h3 : 3 ≤ page.pixmap.n) :
    check_for_colored page = page.pixmap.pixels.any significantPixel := by
  unfold check_for_colored
  have hn : ¬page.pixmap.n < 3 := by omega
  rw [if_neg hn]
  by_cases h4 : page.pixmap.n == 4
  · simp only [h4, if_pos]
    rw [List.any_map]
    simp [Function.comp_def, significantPixel_take]
  · simp only [h4]
    rfl

/-- C2: on a buffer of at least 3 channels whose samples are uint8 values
(≤ 255), the detector returns `true` iff some pixel has |R−G| > 10 or
|G−B| > 10 — the tolerance bound is strict, so a difference of exactly 10
on every pixel leaves it `false` and one pixel at 11 flips it to
`true`. -/
theorem check_for_colored_iff (page : Page) (h3 : 3 ≤ page.pixmap.n)
    (hb : ∀ px ∈ page.pixmap.pixels, ∀ c ∈ px, c ≤ 255) :
    check_for_colored page = true ↔
      ∃ px ∈ page.pixmap.pixels,
        10 < |(px.getD 0 0 : ℤ) - (px.getD 1 0 : ℤ)|
        ∨ 10 < |(px.getD 1 0 : ℤ) - (px.getD 2 0 : ℤ)| := by
  rw [check_for_colored_eq_any page h3, List.any_eq_true]
  constructor
  · rintro ⟨px, hpx, hsig⟩
    exact ⟨px, hpx, (significantPixel_iff px (hb px hpx)).1 hsig⟩
  · rintro ⟨px, hpx, hcond⟩
    exact ⟨px, hpx, (significantPixel_iff px (hb px hpx)).2 hcond⟩

/-- Witness for C2: a 3-channel buffer whose single pixel has |G−B| = 11,
next to a pixel with |R−G| = 10 exactly. -/
theorem check_for_colored_iff_witness :
    check_for_colored ⟨((595 : ℚ), 842), ⟨3, [[100, 110, 100], [100, 100, 111]]⟩⟩ = true ↔
      ∃ px ∈ (Pixmap.mk 3 [[100, 110, 100], [100, 100, 111]]).pixels,
        10 < |(px.getD 0 0 : ℤ) - (px.getD 1 0 : ℤ)|
        ∨ 10 < |(px.getD 1 0 : ℤ) - (px.getD 2 0 : ℤ)| :=
  check_for_colored_iff ⟨((595 : ℚ), 842), ⟨3, [[100, 110, 100], [100, 100, 111]]⟩⟩
    (by decide) (by decide)

/-! ### Witness fixtures: a two-page document, one monochrome A4 page and
one colored A4 page -/

def wPageMono : Page := ⟨(595, 842), ⟨3, [[100, 100, 100]]⟩⟩

def wPageCol : Page := ⟨(595, 842), ⟨3, [[255, 0, 0]]⟩⟩

def wPages : List Page := [wPageMono, wPageCol]

lemma wPageMono_class : classify_page_size wPageMono = .A4 := by
  unfold classify_page_size wPageMono
  norm_num

lemma wPageCol_class : classify_page_size wPageCol = .A4 := by
  unfold classify_page_size wPageCol
  norm_num

lemma wPageMono_color : check_for_colored wPageMono = false := by decide

lemma wPageCol_color : check_for_colored wPageCol = true := by decide

/-! ### Claim theorems: per-document invariants -/

/-- C3: for a document processed to completion, the colored and monochrome
dicts have disjoint key sets whose union is the key set of the all-pages
dict; the four per-bucket counts add up to the total page count; and the
all-pages A4-equivalent is the monochrome A4-equivalent plus the colored
A4-equivalent. -/
theorem get_pdf_info_partition_spec (pages : List Page)
    (tot col mono : PageSizes) (c : ℕ)
    (h : _get_pdf_info none 0 pages = some (tot, col, mono, c)) :
    (∀ k, k ∈ tot.map Prod.fst ↔
        k ∈ col.map Prod.fst ∨ k ∈ mono.map Prod.fst)
    ∧ (∀ k, ¬(k ∈ col.map Prod.fst ∧ k ∈ mono.map Prod.fst))
    ∧ countVal tot .A4 + countVal tot .A3 + countVal tot .A2
        + countVal tot .A1 = tot.length
    ∧ tot.length = pages.length
    ∧ calculate_a4_equivalent tot =
        calculate_a4_equivalent mono + calculate_a4_equivalent col := by
  rw [get_pdf_info_none] at h
  simp only [Option.some.injEq, Prod.mk.injEq] at h
  obtain ⟨rfl, rfl, rfl, rfl⟩ := h
  refine ⟨fun k => (keys_partition pages 0 k).1,
    fun k => (keys_partition pages 0 k).2, ?_, totOf_length pages 0, ?_⟩
  · unfold countVal
    rw [count_sizes_eq_length]
    simp
  · rw [a4_equivalent_eq_weight_sum, a4_equivalent_eq_weight_sum,
      a4_equivalent_eq_weight_sum]
    have hp := ((vals_perm pages 0).map PageSize.weight).sum_eq
    rw [List.map_append, List.sum_append] at hp
    omega

/-- Witness for C3 on the two-page fixture document. -/
theorem get_pdf_info_partition_spec_witness :
    (∀ k, k ∈ ([(1, PageSize.A4), (2, PageSize.A4)] : PageSizes).map Prod.fst ↔
        k ∈ ([(2, PageSize.A4)] : PageSizes).map Prod.fst
        ∨ k ∈ ([(1, PageSize.A4)] : PageSizes).map Prod.fst)
    ∧ (∀ k, ¬(k ∈ ([(2, PageSize.A4)] : PageSizes).map Prod.fst
        ∧ k ∈ ([(1, PageSize.A4)] : PageSizes).map Prod.fst))
    ∧ countVal [(1, PageSize.A4), (2, PageSize.A4)] .A4
        + countVal [(1, PageSize.A4), (2, PageSize.A4)] .A3
        + countVal [(1, PageSize.A4), (2, PageSize.A4)] .A2
        + countVal [(1, PageSize.A4), (2, PageSize.A4)] .A1 =
        ([(1, PageSize.A4), (2, PageSize.A4)] : PageSizes).length
    ∧ ([(1, PageSize.A4), (2, PageSize.A4)] : PageSizes).length = wPages.length
    ∧ calculate_a4_equivalent [(1, PageSize.A4), (2, PageSize.A4)] =
        calculate_a4_equivalent [(1, PageSize.A4)]
          + calculate_a4_equivalent [(2, PageSize.A4)] :=
  get_pdf_info_partition_spec wPages
    [(1, PageSize.A4), (2, PageSize.A4)] [(2, PageSize.A4)]
    [(1, PageSize.A4)] 2
    (by rw [get_pdf_info_none]
        simp [wPages, totOf, colOf, monoOf, wPageMono_class, wPageCol_class,
          wPageMono_color, wPageCol_color])

/-! ### Closed forms of the file loop -/

lemma runGo_none (docPages : String → List Page) (total : ℕ) :
    ∀ (files : List String) (i c : ℕ) (msgs : List String)
      (data : List Row),
      runGo docPages none total i c msgs data files =
        (msgs ++ progressMsgs total i files,
         data ++ files.map (rowOf docPages), true) := by
  intro files
  induction files with
  | nil =>
    intro i c msgs data
    simp [runGo, progressMsgs]
  | cons f rest ih =>
    intro i c msgs data
    simp only [runGo]
    rw [get_pdf_info_none]
    dsimp only
    rw [ih (i + 1) (c + (docPages f).length)]
    simp [progressMsgs, rowOf, List.append_assoc]

lemma runGo_stop (docPages : String → List Page) (total s : ℕ) :
    ∀ (files : List String) (j i c : ℕ) (msgs : List String)
      (data : List Row),
      j < files.length →
      c + checksUpTo docPages files j ≤ s →
      s < c + checksUpTo docPages files j
        + (docPages (files.getD j "")).length →
      runGo docPages (some s) total i c msgs data files =
        (msgs ++ progressMsgs total i (files.take (j + 1)),
         data ++ (files.take j).map (rowOf docPages), false) := by
  intro files
  induction files with
  | nil =>
    intro j i c msgs data hj
    simp at hj
  | cons f rest ih =>
    intro j i c msgs data hj h1 h2
    cases j with
    | zero =>
      have hcu : checksUpTo docPages (f :: rest) 0 = 0 := by
        simp [checksUpTo]
      rw [hcu] at h1 h2
      have hd : (f :: rest).getD 0 "" = f := rfl
      rw [hd] at h2
      simp only [runGo]
      rw [get_pdf_info_abort s c (docPages f) (by omega) (by omega)]
      dsimp only
      simp [progressMsgs]
    | succ j2 =>
      have hj2 : j2 < rest.length := by
        simp only [List.length_cons] at hj
        omega
      have hcu : checksUpTo docPages (f :: rest) (j2 + 1) =
          (docPages f).length + checksUpTo docPages rest j2 := by
        simp [checksUpTo, List.take_succ_cons]
      rw [hcu] at h1 h2
      have hd : (f :: rest).getD (j2 + 1) "" = rest.getD j2 "" := rfl
      rw [hd] at h2
      simp only [runGo]
      rw [get_pdf_info_complete (some s) c (docPages f)
        (by intro k hk
            simp only [aborted, decide_eq_false_iff_not]
            omega)]
      dsimp only
      rw [show mkRow f (totOf 0 (docPages f)) (colOf 0 (docPages f))
          (monoOf 0 (docPages f)) = rowOf docPages f from rfl]
      rw [ih j2 (i + 1) (c + (docPages f).length)
        (msgs ++ [progressMessage i total f]) (data ++ [rowOf docPages f])
        hj2 (by omega) (by omega)]
      simp [progressMsgs, List.take_succ_cons, List.append_assoc]

/-! ### Claim theorems: the file loop -/

/-- C8: a run over a folder listing processes exactly the names whose
lowercased form ends in ".pdf", in the listing's order: the per-file
progress messages enumerate exactly those names, the result table has one
row per such name in the same order, and a non-PDF name is the file name
of no row. -/
theorem run_filters_pdfs (listing : List String)
    (docPages : String → List Page) (out : String) :
    Calculate_run listing docPages none out =
      (progressMsgs (pdfFiles listing).length 1 (pdfFiles listing)
        ++ ["PDF 정보가 " ++ out ++ "에 저장되었습니다."],
       (pdfFiles listing).map (rowOf docPages), true)
    ∧ ((pdfFiles listing).map (rowOf docPages)).map Row.fileName =
        pdfFiles listing
    ∧ (∀ f ∈ pdfFiles listing, pdfPred f = true)
    ∧ (∀ f ∈ listing, pdfPred f = false →
        f ∉ ((pdfFiles listing).map (rowOf docPages)).map Row.fileName) := by
  have hid : ((pdfFiles listing).map (rowOf docPages)).map Row.fileName =
      pdfFiles listing := by
    rw [List.map_map]
    exact List.map_id' _
  refine ⟨?_, hid, ?_, ?_⟩
  · simp only [Calculate_run]
    rw [runGo_none docPages (pdfFiles listing).length (pdfFiles listing)
      1 0 [] []]
    simp
  · intro f hf
    exact (List.mem_filter.mp hf).2
  · intro f _ hnp hmem
    rw [hid] at hmem
    have hp := (List.mem_filter.mp hmem).2
    rw [hnp] at hp
    cases hp

/-- Witness for C8: a listing of one PDF and one text file; the PDF name
passes the filter and the text file names no row. -/
theorem run_filters_pdfs_witness :
    pdfPred "a.PDF" = true
    ∧ "b.txt" ∉ ((pdfFiles ["a.PDF", "b.txt"]).map
        (rowOf (fun _ => []))).map Row.fileName :=
  ⟨(run_filters_pdfs ["a.PDF", "b.txt"] (fun _ => []) "o").2.2.1 "a.PDF"
      (by decide),
   (run_filters_pdfs ["a.PDF", "b.txt"] (fun _ => []) "o").2.2.2 "b.txt"
      (by decide) (by decide)⟩

/-- C5: if cancellation is observed during document `j` (0-based) of the
filtered listing — its flag poll number `s` falls among document `j`'s
page polls — the run aborts with the result table holding exactly the
rows of the `j` documents completed before it, and does not complete. -/
theorem run_abort_spec (listing : List String)
    (docPages : String → List Page) (out : String) (s j : ℕ)
    (hj : j < (pdfFiles listing).length)
    (h1 : checksUpTo docPages (pdfFiles listing) j ≤ s)
    (h2 : s < checksUpTo docPages (pdfFiles listing) j
        + (docPages ((pdfFiles listing).getD j "")).length) :
    (Calculate_run listing docPages (some s) out).2.1 =
      ((pdfFiles listing).take j).map (rowOf docPages)
    ∧ (Calculate_run listing docPages (some s) out).2.2 = false := by
  have hrun := runGo_stop docPages (pdfFiles listing).length s
    (pdfFiles listing) j 1 0 [] [] hj (by omega) (by omega)
  simp only [Calculate_run]
  rw [hrun]
  dsimp only
  simp

/-- Witness for C5: cancelling during document 2 of 3 two-page documents
(flag poll 3, the second page of document 2) leaves exactly document 1's
row. -/
theorem run_abort_spec_witness :
    (Calculate_run ["a.pdf", "b.pdf", "c.pdf"] (fun _ => wPages) (some 3)
        "o").2.1 =
      ((pdfFiles ["a.pdf", "b.pdf", "c.pdf"]).take 1).map
        (rowOf (fun _ => wPages))
    ∧ (Calculate_run ["a.pdf", "b.pdf", "c.pdf"] (fun _ => wPages) (some 3)
        "o").2.2 = false :=
  run_abort_spec ["a.pdf", "b.pdf", "c.pdf"] (fun _ => wPages) "o" 3 1
    (by decide) (by decide) (by decide)

/-- C10: in a completed document's summary row, the colored-pages audit
field is the comma-separated list of exactly the 1-based page indices the
color detector accepted, in strictly increasing page order. -/
theorem row_colored_pages_spec (filename : String) (pages : List Page)
    (tot col mono : PageSizes) (c : ℕ)
    (h : _get_pdf_info none 0 pages = some (tot, col, mono, c)) :
    (mkRow filename tot col mono).coloredPages =
      String.intercalate "," ((coloredIndices 0 pages).map toString)
    ∧ col.map Prod.fst = coloredIndices 0 pages
    ∧ List.Pairwise (fun a b => a < b) (coloredIndices 0 pages)
    ∧ (∀ k, k ∈ coloredIndices 0 pages ↔
        ∃ i, i < pages.length ∧ k = i + 1
          ∧ check_for_colored (pages.getD i dummyPage) = true) := by
  rw [get_pdf_info_none] at h
  simp only [Option.some.injEq, Prod.mk.injEq] at h
  obtain ⟨rfl, rfl, rfl, rfl⟩ := h
  refine ⟨?_, keys_colOf_eq_coloredIndices pages 0,
    coloredIndices_pairwise pages 0, ?_⟩
  · have hmm : (colOf 0 pages).map (fun kv => toString kv.1) =
        ((colOf 0 pages).map Prod.fst).map toString := by
      rw [List.map_map]
      rfl
    simp only [mkRow]
    rw [hmm, keys_colOf_eq_coloredIndices]
  · intro k
    rw [coloredIndices_mem pages 0 k]
    simp only [Nat.zero_add]

/-- Witness for C10 on the two-page fixture document: only page 2 is
colored. -/
theorem row_colored_pages_spec_witness :
    (mkRow "w.pdf" [(1, PageSize.A4), (2, PageSize.A4)] [(2, PageSize.A4)]
        [(1, PageSize.A4)]).coloredPages =
      String.intercalate "," ((coloredIndices 0 wPages).map toString)
    ∧ ([(2, PageSize.A4)] : PageSizes).map Prod.fst = coloredIndices 0 wPages
    ∧ List.Pairwise (fun a b => a < b) (coloredIndices 0 wPages)
    ∧ (∀ k, k ∈ coloredIndices 0 wPages ↔
        ∃ i, i < wPages.length ∧ k = i + 1
          ∧ check_for_colored (wPages.getD i dummyPage) = true) :=
  row_colored_pages_spec "w.pdf" wPages
    [(1, PageSize.A4), (2, PageSize.A4)] [(2, PageSize.A4)]
    [(1, PageSize.A4)] 2
    (by rw [get_pdf_info_none]
        simp [wPages, totOf, colOf, monoOf, wPageMono_class, wPageCol_class,
          wPageMono_color, wPageCol_color])
